import Mathlib

/-!
Shallow embedding of the cellxgene-census repository material:
the "find duplicate cells" notebook (`tools/cell_dup_check/finddups.ipynb`),
the PyTorch training tutorial notebook, and the CI workflow for the Python
package unit tests.  Machine integers and float payloads are modelled as
`Nat` values, byte serialisation as lists of those values, dataframes as
lists of records, and the xxh3_128 digest as an arbitrary function of the
exact byte stream the notebook feeds it.
-/

namespace CellDup

/-! ### The per-row hash of `finddups.ipynb`

A cell's expression row is the dense vector of counts across all genes
(one entry per gene).  `X_chunk.getrow(r)` extracts the row as a 1 x n CSR
matrix: `data` is the sequence of non-zero values in column order,
`indices` the corresponding column (gene) positions, and `indptr` the
two-element array `[0, nnz]`.  The notebook computes
`xxh3_128(X_row.data.tobytes())` and then `hash.update(X_row.indptr)`,
so the digested byte stream is the serialisation of `data` followed by
the serialisation of `indptr`. -/

/-- Model of `X_row.data`: the non-zero values of the row, in column order. -/
def rowData (row : List Nat) : List Nat :=
  row.filter (fun v => v ≠ 0)

/-- Model of `X_row.indices`: the column (gene) positions of the non-zero values.
These are never fed to the hash; the definition exists to state that. -/
def rowIndices (row : List Nat) : List Nat :=
  (row.enum).filterMap (fun p => if p.2 ≠ 0 then some p.1 else none)

/-- Model of `X_row.indptr` of a freshly extracted single row: `[0, nnz]`. -/
def rowIndptr (row : List Nat) : List Nat :=
  [0, (rowData row).length]

/-- The byte stream digested for one cell: `data` bytes, then `indptr`
bytes, exactly as in `xxh3_128(X_row.data.tobytes()); hash.update(X_row.indptr)`. -/
def hashedBytes (row : List Nat) : List Nat :=
  rowData row ++ rowIndptr row

/-- The recorded hex digest of one cell, for an arbitrary digest function
`H` standing for xxh3_128 (deterministic in its input bytes). -/
def cellHash {β : Type} (H : List Nat → β) (row : List Nat) : β :=
  H (hashedBytes row)

/-! ### `X_sparse_iter` row partitioning and the hashing loop

`X_sparse_iter(query, X_name="raw", stride=row_stride)` yields the obs
rows of the query partitioned into consecutive chunks of `stride` rows,
each chunk paired with the corresponding row slice of X.  The loop hashes
row `r` of each chunk and records the digest at that row's `soma_joinid`. -/

/-- Partition a list into consecutive chunks of `s` elements (the row
partitioning performed by `X_sparse_iter` with `stride = s`). -/
def chunksOf {α : Type} (s : Nat) (l : List α) : List (List α) :=
  if s = 0 then [l]
  else if l.isEmpty then []
  else l.take s :: chunksOf s (l.drop s)
termination_by l.length
decreasing_by
  simp only [List.length_drop]
  rename_i hs hl
  have h0 : 0 < l.length := by
    cases l with
    | nil => simp [List.isEmpty] at hl
    | cons a t => simp
  omega

/-- One chunk of the inner loop: hash each row of the chunk (in index
order) and pair the digest with the row's `soma_joinid`. -/
def hashChunk {β : Type} (H : List Nat → β) (X : Nat → List Nat)
    (chunk : List Nat) : List (Nat × β) :=
  chunk.map (fun j => (j, cellHash H (X j)))

/-- The hashing loop: iterate over the chunks yielded by `X_sparse_iter`
in arrival order, hashing each chunk's rows in index order, accumulating
the `(soma_joinid, hexdigest)` assignments in write order. -/
def hashLoop {β : Type} (H : List Nat → β) (X : Nat → List Nat)
    (obsIds : List Nat) (s : Nat) : List (Nat × β) :=
  (chunksOf s obsIds).flatMap (hashChunk H X)

/-- The order in which the loop visits obs rows (the trace of writes into
the `hashes` series). -/
def hashLoopOrder (obsIds : List Nat) (s : Nat) : List Nat :=
  (chunksOf s obsIds).flatMap (fun chunk => chunk)

/-! ### The obs table and the notebook's reports

After the hashing phase, `obs_df` is indexed by `soma_joinid` and carries
exactly the columns `hash`, `dataset_id`, `is_primary_data` (`hash`
inserted at position 0 by `obs_df.insert(0, "hash", hashes)`).  A row of
that table: -/

structure ObsRow where
  soma_joinid : Nat
  hash : String
  dataset_id : String
  is_primary_data : Bool
deriving DecidableEq, Repr

/-- A row of `datasets_df` (the Census datasets metadata, with
`soma_joinid` dropped); the remaining metadata columns are abstracted into
one payload field. -/
structure DatasetRow where
  dataset_id : String
  meta : String
deriving DecidableEq, Repr

/-- The entry of `hash_primary_pivot` at `(h, b)`: the number of obs rows
with hash `h` and `is_primary_data = b` (`value_counts` on the pair,
pivoted with `fill_value=0`). -/
def pivotCount (obs : List ObsRow) (h : String) (b : Bool) : Nat :=
  (obs.filter (fun r => r.hash = h ∧ r.is_primary_data = b)).length

/-- The pivot's index: the distinct hashes occurring in `obs_df`. -/
def pivotHashes (obs : List ObsRow) : List String :=
  (obs.map (fun r => r.hash)).dedup

/-- Model of `hash_primary_pivot[hash_primary_pivot.loc[:, True] > 1].index`:
the hashes whose `True` pivot column exceeds 1. -/
def dupPrimaryHashes (obs : List ObsRow) : List String :=
  (pivotHashes obs).filter (fun h => 1 < pivotCount obs h true)

/-- Model of `hash_primary_pivot[hash_primary_pivot.loc[:, True] == 0].index`:
the hashes with no copy marked primary. -/
def missingPrimaryHashes (obs : List ObsRow) : List String :=
  (pivotHashes obs).filter (fun h => pivotCount obs h true = 0)

/-- Model of `obs_df.reset_index().set_index("hash").loc[hs]`: for each hash of
`hs` in order, all obs rows carrying that hash. -/
def locByHash (obs : List ObsRow) (hs : List String) : List ObsRow :=
  hs.flatMap (fun h => obs.filter (fun r => r.hash = h))

/-- Case 2 of the notebook: rows selected by the duplicated-primary hash
index, then filtered to `is_primary_data == True`. -/
def obsDuplicatePrimary (obs : List ObsRow) : List ObsRow :=
  (locByHash obs (dupPrimaryHashes obs)).filter (fun r => r.is_primary_data)

/-- Case 1 of the notebook: rows whose hash has zero primary copies. -/
def obsMissingPrimary (obs : List ObsRow) : List ObsRow :=
  locByHash obs (missingPrimaryHashes obs)

/-- Model of `value_counts(subset=["dataset_id"])` over a report frame: each
distinct dataset id with its number of rows. -/
def datasetValueCounts (rows : List ObsRow) : List (String × Nat) :=
  ((rows.map (fun r => r.dataset_id)).dedup).map
    (fun d => (d, (rows.filter (fun r => r.dataset_id = d)).length))

/-- Model of `.join(datasets_df.set_index("dataset_id"), on="dataset_id")`: attach
the metadata row for the dataset id, when one exists. -/
def datasetLookup (ds : List DatasetRow) (d : String) : Option DatasetRow :=
  ds.find? (fun row => row.dataset_id = d)

/-- Model of `datasets_with_dup_primary`: per-dataset duplicate-cell counts joined
against the Census datasets metadata. -/
def datasetsWithDupPrimary (obs : List ObsRow) (ds : List DatasetRow) :
    List (String × Nat × Option DatasetRow) :=
  (datasetValueCounts (obsDuplicatePrimary obs)).map
    (fun p => (p.1, p.2, datasetLookup ds p.1))

/-! ### Column bookkeeping for `obs_df` (C6) -/

/-- The columns requested from `query.obs(...)`. -/
def obsQueryColumns : List String := ["dataset_id", "soma_joinid", "is_primary_data"]

/-- Columns after `.set_index("soma_joinid")` moves the join id out of
the column set and into the index. -/
def obsColumnsIndexed : List String := obsQueryColumns.erase "soma_joinid"

/-- Columns after `obs_df.insert(0, "hash", hashes)`. -/
def obsColumnsFinal : List String := List.insertIdx 0 "hash" obsColumnsIndexed

/-- The report phase of the notebook: every frame computed after the
hashing loop, bundled with the (unchanged) `obs_df` it reads from. -/
structure ReportPhase where
  obsAfter : List ObsRow
  dupHashIndex : List String
  missingHashIndex : List String
  missingPrimaryReport : List ObsRow
  duplicatePrimaryReport : List ObsRow
  datasetsDupReport : List (String × Nat × Option DatasetRow)
deriving Repr

/-- Run every report cell of the notebook over `obs_df` and
`datasets_df`; each cell only reads `obs_df`. -/
def runReports (obs : List ObsRow) (ds : List DatasetRow) : ReportPhase :=
  { obsAfter := obs
    dupHashIndex := dupPrimaryHashes obs
    missingHashIndex := missingPrimaryHashes obs
    missingPrimaryReport := obsMissingPrimary obs
    duplicatePrimaryReport := obsDuplicatePrimary obs
    datasetsDupReport := datasetsWithDupPrimary obs ds }

/-! ### Effect model of the whole notebook run (C8)

The notebook's only interactions with the outside world are reads of the
opened Census store.  The world carries the store and a file system; the
primitives the notebook actually uses are all reads, threaded through the
world state so that any mutation would be visible in the returned world. -/

/-- The opened Census store: datasets metadata, the obs axis of the RNA
query, and the raw X matrix (row content keyed by `soma_joinid`). -/
structure CensusStore where
  datasets : List DatasetRow
  obsRows : List ObsRow
  X : Nat → List Nat

/-- The world outside the notebook process: the remote store and a file
system (name, contents). -/
structure World where
  census : CensusStore
  files : List (String × String)

/-- Read of `census["census_info"]["datasets"].read()` - a pure read. -/
def readDatasets (w : World) : World × List DatasetRow :=
  (w, w.census.datasets)

/-- Read of `query.obs(...).concat().to_pandas()` - a pure read. -/
def readObs (w : World) : World × List ObsRow :=
  (w, w.census.obsRows)

/-- Read of `X_sparse_iter(query, X_name="raw", stride=s)` - a pure read of the
row partitions. -/
def readXChunks (w : World) (s : Nat) : World × List (List Nat) :=
  (w, chunksOf s (w.census.obsRows.map (fun r => r.soma_joinid)))

/-- Everything the notebook builds, all of it in memory. -/
structure Artifacts where
  datasets_df : List DatasetRow
  obs_df : List ObsRow
  hashes : List (Nat × String)
  reports : ReportPhase

/-- The whole notebook run: open the store, read the datasets metadata,
read obs, hash every row partition, and compute the reports; the world is
threaded through every primitive. -/
def runFindDups (H : List Nat → String) (s : Nat) (w : World) :
    World × Artifacts :=
  let (w1, ds) := readDatasets w
  let (w2, obs0) := readObs w1
  let (w3, _chunks) := readXChunks w2 s
  let hs := hashLoop H w3.census.X (obs0.map (fun r => r.soma_joinid)) s
  let obs := obs0.map (fun r =>
    { r with hash := cellHash H (w3.census.X r.soma_joinid) })
  (w3, { datasets_df := ds, obs_df := obs, hashes := hs,
         reports := runReports obs ds })

/-! ### Exception propagation through the hashing loop (C7)

The hashing cell contains no `try`/`except`; a failure of the store
iterator or of the hash library aborts the scan with that same error.
Fallibility is made explicit: the iterator yields `Except` chunks and the
digest function may fail. -/

/-- Inner loop over one chunk with a fallible digest: the first digest
failure aborts with that error. -/
def hashChunkE {β : Type} (H : List Nat → Except String β)
    (chunk : List Nat) (X : Nat → List Nat) : Except String (List (Nat × β)) :=
  match chunk with
  | [] => .ok []
  | j :: rest =>
    match H (hashedBytes (X j)) with
    | .error e => .error e
    | .ok h =>
      match hashChunkE H rest X with
      | .error e => .error e
      | .ok tail => .ok ((j, h) :: tail)

/-- Outer loop over the iterator's yields: a failed yield, or a failed
chunk, aborts the scan with that error; otherwise the per-chunk results
are concatenated in order. -/
def hashLoopE {β : Type} (H : List Nat → Except String β)
    (yields : List (Except String (List Nat))) (X : Nat → List Nat) :
    Except String (List (Nat × β)) :=
  match yields with
  | [] => .ok []
  | y :: rest =>
    match y with
    | .error e => .error e
    | .ok chunk =>
      match hashChunkE H chunk X with
      | .error e => .error e
      | .ok hs =>
        match hashLoopE H rest X with
        | .error e => .error e
        | .ok tail => .ok (hs ++ tail)

/-! ### The CI workflow (C4)

`unit_tests_python_api` and `unit_tests_builder` from the workflow file.
A job runs its steps in order and stops at the first failing step; the
job exits zero iff every step succeeded. -/

inductive Step where
  | checkout
  | setupPython
  | installDeps
  | pytest (suite : String)
  | uploadArtifact
deriving DecidableEq, Repr

def Step.isPytest : Step → Bool
  | .pytest _ => true
  | _ => false

/-- Steps of the `unit_tests_python_api` job, in workflow order. -/
def apiJobSteps : List Step :=
  [.checkout, .setupPython, .installDeps,
   .pytest "api-main", .pytest "api-experimental", .uploadArtifact]

/-- Steps of the `unit_tests_builder` job, in workflow order. -/
def builderJobSteps : List Step :=
  [.checkout, .setupPython, .installDeps, .pytest "builder", .uploadArtifact]

/-- Sequential execution: run steps in order with the given per-step
outcomes, stopping after the first failure; returns the executed steps
paired with their outcomes. -/
def executedSteps : List Step → List Bool → List (Step × Bool)
  | st :: ss, b :: bs =>
    if b then (st, b) :: executedSteps ss bs else [(st, b)]
  | _, _ => []

/-- The job exits zero iff every one of its step outcomes is success. -/
def jobSucceeds (outcomes : List Bool) : Bool :=
  outcomes.all (fun b => b)

/-- Every pytest invocation that actually ran succeeded. -/
def pytestInvocationsOk (steps : List Step) (outcomes : List Bool) : Bool :=
  (executedSteps steps outcomes).all (fun p => !(Step.isPytest p.1) || p.2)

/-! ### API surface used by the two notebooks (C5)

The names reached into the `cellxgene_census` / `tiledbsoma` packages by
each notebook, transcribed from their import and call sites. -/

/-- The four entry points the specification names. -/
def specEntryPoints : List String :=
  ["open_soma", "axis_query", "ExperimentDataPipe", "experiment_dataloader"]

/-- Census/SOMA entry points invoked by `finddups.ipynb`:
`cellxgene_census.open_soma(...)`, `exp.axis_query(measurement_name="RNA")`,
and `X_sparse_iter(query, X_name="raw", stride=row_stride)` imported from
`cellxgene_census.experimental.util`. -/
def finddupsEntryPoints : List String :=
  ["open_soma", "axis_query", "X_sparse_iter"]

/-- Census/SOMA entry points invoked by the PyTorch tutorial notebook:
`cellxgene_census.open_soma()`, `census_ml.ExperimentDataPipe(...)`,
`soma.AxisQuery(value_filter=...)`, and
`census_ml.experiment_dataloader(...)`. -/
def pytorchEntryPoints : List String :=
  ["open_soma", "ExperimentDataPipe", "AxisQuery", "experiment_dataloader"]

end CellDup

namespace TrainNB

/-! ### `train_epoch` of the PyTorch tutorial notebook (C10)

A batch is the pair `X_batch, y_batch` yielded by the dataloader:
`X_batch` as a list of feature rows (rationals standing for the float
entries) and `y_batch` as rows `(soma_joinid, encoded cell_type)`.  The
composite `argmax(softmax(model(x)))` is abstracted as a predictor
function on one row, and `loss_fn(...).item()` as a per-batch scalar. -/

structure Batch where
  xs : List (List ℚ)
  ys : List (Nat × Nat)

/-- Model of `predictions = torch.argmax(...)`, one label per row of `X_batch`. -/
def batchPredictions (predict : List ℚ → Nat) (b : Batch) : List Nat :=
  b.xs.map predict

/-- Model of `y_batch = y_batch[:, 1]`: drop the join ids, keep the labels. -/
def batchLabels (b : Batch) : List Nat :=
  b.ys.map Prod.snd

/-- Model of `(predictions == y_batch).sum().item()`. -/
def batchCorrect (predict : List ℚ → Nat) (b : Batch) : Nat :=
  (((batchPredictions predict b).zip (batchLabels b)).filter
    (fun p => p.1 = p.2)).length

/-- The loop body accumulator `(train_loss, train_correct, train_total)`
folded over the yielded batches. -/
def trainEpochAcc (predict : List ℚ → Nat)
    (lossFn : List (List ℚ) → List Nat → ℚ) (batches : List Batch) :
    ℚ × Nat × Nat :=
  batches.foldl
    (fun acc b =>
      (acc.1 + lossFn b.xs (batchLabels b),
       acc.2.1 + batchCorrect predict b,
       acc.2.2 + (batchPredictions predict b).length))
    (0, 0, 0)

/-- Model of `train_epoch`: run the loop, then perform the two final divisions
`train_loss /= train_total` and `train_accuracy = train_correct /
train_total`; a zero `train_total` raises `ZeroDivisionError`. -/
def trainEpoch (predict : List ℚ → Nat)
    (lossFn : List (List ℚ) → List Nat → ℚ) (batches : List Batch) :
    Except String (ℚ × ℚ) :=
  let acc := trainEpochAcc predict lossFn batches
  if acc.2.2 = 0 then .error "ZeroDivisionError"
  else .ok (acc.1 / (acc.2.2 : ℚ), (acc.2.1 : ℚ) / (acc.2.2 : ℚ))

end TrainNB

namespace CellDup

/-! ### Concrete instances used to witness the theorems -/

/-- A small obs table: hash `h1` carried by two primary rows and one
non-primary row, hash `h2` by one primary row. -/
def exampleObs : List ObsRow :=
  [⟨0, "h1", "d1", true⟩, ⟨1, "h1", "d2", true⟩,
   ⟨2, "h1", "d3", false⟩, ⟨3, "h2", "d1", true⟩]

/-- A small store and world for the frame-effect witness. -/
def exampleStore : CensusStore :=
  { datasets := [⟨"d1", "m1"⟩], obsRows := exampleObs, X := fun j => [j, 0] }

def exampleWorld : World :=
  { census := exampleStore, files := [("log.txt", "x")] }

/-- The same store under a different file system. -/
def exampleWorldB : World :=
  { census := exampleStore, files := [] }

end CellDup

/-!
# Theorems

Helper lemmas first, then one theorem per claim with its witness or
counterexample.
-/

namespace CellDup

theorem chunksOf_flatten {α : Type} (s : Nat) (hs : 0 < s) (l : List α) :
    (chunksOf s l).flatMap (fun chunk => chunk) = l := by
  induction l using chunksOf.induct s with
  | case1 => omega
  | case2 l hsz hl =>
    cases l with
    | nil => rw [chunksOf]; simp [if_neg (by omega : ¬ s = 0)]
    | cons a t => simp [List.isEmpty] at hl
  | case3 l hsz hl ih =>
    rw [chunksOf, if_neg hsz, if_neg (by simpa using hl)]
    simpa [List.flatMap_cons] using
      congrArg (fun r => l.take s ++ r) ih |>.trans (List.take_append_drop s l)

theorem flatMap_map_comm {α β : Type} (f : α → β) (L : List (List α)) :
    L.flatMap (fun c => c.map f) = (L.flatMap (fun c => c)).map f := by
  induction L with
  | nil => rfl
  | cons c rest ih => simp [List.flatMap_cons, ih]

theorem hashLoop_eq_map {β : Type} (H : List Nat → β) (X : Nat → List Nat)
    (obsIds : List Nat) (s : Nat) (hs : 0 < s) :
    hashLoop H X obsIds s = obsIds.map (fun j => (j, cellHash H (X j))) := by
  unfold hashLoop hashChunk
  rw [flatMap_map_comm, chunksOf_flatten s hs]

end CellDup

namespace TrainNB

theorem trainEpochAcc_shift (predict : List ℚ → Nat)
    (lossFn : List (List ℚ) → List Nat → ℚ) (batches : List Batch)
    (a : ℚ) (c t : Nat) :
    batches.foldl
      (fun acc b =>
        (acc.1 + lossFn b.xs (batchLabels b),
         acc.2.1 + batchCorrect predict b,
         acc.2.2 + (batchPredictions predict b).length))
      (a, c, t)
    = (a + (trainEpochAcc predict lossFn batches).1,
       c + (trainEpochAcc predict lossFn batches).2.1,
       t + (trainEpochAcc predict lossFn batches).2.2) := by
  induction batches generalizing a c t with
  | nil => simp [trainEpochAcc]
  | cons b rest ih =>
    simp only [trainEpochAcc, List.foldl_cons] at *
    rw [ih, ih (0 + lossFn b.xs (batchLabels b))]
    simp only [Prod.mk.injEq]
    exact ⟨by ring, by omega, by omega⟩

theorem trainEpochAcc_total (predict : List ℚ → Nat)
    (lossFn : List (List ℚ) → List Nat → ℚ) (batches : List Batch) :
    (trainEpochAcc predict lossFn batches).2.2
      = (batches.map (fun b => b.xs.length)).sum := by
  induction batches with
  | nil => rfl
  | cons b rest ih =>
    simp only [trainEpochAcc, List.foldl_cons, List.map_cons, List.sum_cons]
    rw [trainEpochAcc_shift]
    simp [batchPredictions, ih]

theorem trainEpochAcc_correct_le (predict : List ℚ → Nat)
    (lossFn : List (List ℚ) → List Nat → ℚ) (batches : List Batch) :
    (trainEpochAcc predict lossFn batches).2.1
      ≤ (trainEpochAcc predict lossFn batches).2.2 := by
  induction batches with
  | nil => exact Nat.le_refl 0
  | cons b rest ih =>
    have hb : batchCorrect predict b ≤ (batchPredictions predict b).length := by
      unfold batchCorrect
      refine le_trans (List.length_filter_le _ _) ?_
      rw [List.length_zip]
      exact Nat.min_le_left _ _
    simp only [trainEpochAcc, List.foldl_cons]
    rw [trainEpochAcc_shift]
    dsimp only
    omega

end TrainNB

namespace CellDup

/-- C1: for every obs row (cell) of the RNA axis query, the hashing loop
scans the row partitions yielded by `X_sparse_iter` once, computes exactly
one content hash for the row and records it at the row's `soma_joinid`
index — no row hashed twice, none skipped — and the duplicate-primary
dataset report joins the per-cell counts against the Census datasets
metadata.  Stated for any stride `s > 0` (the notebook uses 250000), any
digest function `H` and any X matrix. -/
theorem C1_hashing_loop {β : Type} (H : List Nat → β) (X : Nat → List Nat)
    (obsIds : List Nat) (s : Nat) (hs : 0 < s) :
    hashLoop H X obsIds s = obsIds.map (fun j => (j, cellHash H (X j)))
    ∧ (hashLoop H X obsIds s).map Prod.fst = obsIds
    ∧ (∀ j ∈ obsIds, (j, cellHash H (X j)) ∈ hashLoop H X obsIds s)
    ∧ (obsIds.Nodup →
        ∀ j ∈ obsIds, ((hashLoop H X obsIds s).map Prod.fst).count j = 1)
    ∧ (∀ obs ds, ∀ e ∈ datasetsWithDupPrimary obs ds,
        e.2.2 = datasetLookup ds e.1) := by
  have hmain := hashLoop_eq_map H X obsIds s hs
  have hkeys : (hashLoop H X obsIds s).map Prod.fst = obsIds := by
    rw [hmain, List.map_map]
    simp [Function.comp_def]
  refine ⟨hmain, hkeys, ?_, ?_, ?_⟩
  · intro j hj
    rw [hmain]
    exact List.mem_map.mpr ⟨j, hj, rfl⟩
  · intro hnd j hj
    rw [hkeys]
    exact List.count_eq_one_of_mem hnd hj
  · intro obs ds e he
    simp only [datasetsWithDupPrimary, List.mem_map] at he
    obtain ⟨p, _, rfl⟩ := he
    rfl

/-- Witness for C1 at a concrete input: digest `H = id`, a two-gene X
matrix, obs join ids `[3, 1, 2]` and stride 2 (two partitions). -/
theorem C1_hashing_loop_witness :
    hashLoop (fun l => l) (fun j => [j, 0]) [3, 1, 2] 2
      = [(3, [3, 0, 1]), (1, [1, 0, 1]), (2, [2, 0, 1])]
    ∧ ((hashLoop (fun l => l) (fun j => [j, 0]) [3, 1, 2] 2).map
        Prod.fst).count 3 = 1 := by
  have h := C1_hashing_loop (fun l => l) (fun j => [j, 0]) [3, 1, 2] 2
    (by decide)
  refine ⟨?_, h.2.2.2.1 (by decide) 3 (by decide)⟩
  rw [h.1]
  rfl

/-- C2: the per-cell hash is a function only of the row's non-zero values
(`X_row.data`) and its `indptr` (which, for one extracted row, is
determined by the non-zero count): two rows with the same sequence of
non-zero values get equal hashes regardless of which genes carry them,
and every all-zero row digests the common byte stream `[] ++ [0, 0]`. -/
theorem C2_hash_ignores_gene_indices {β : Type} (H : List Nat → β) :
    (∀ r1 r2 : List Nat, rowData r1 = rowData r2 →
        cellHash H r1 = cellHash H r2)
    ∧ (∀ r : List Nat, (∀ v ∈ r, v = 0) → cellHash H r = H [0, 0]) := by
  constructor
  · intro r1 r2 h
    unfold cellHash hashedBytes rowIndptr
    rw [h]
  · intro r h
    have hd : rowData r = [] :=
      List.filter_eq_nil_iff.mpr (fun a ha => by simpa using h a ha)
    unfold cellHash hashedBytes rowIndptr
    rw [hd]
    rfl

/-- Witness for C2: `[5, 0, 3]` and `[0, 5, 3, 0, 0]` carry the same
non-zero values at different gene indices and hash identically; the
all-zero row hashes the common stream `[0, 0]`. -/
theorem C2_hash_ignores_gene_indices_witness :
    cellHash (fun l => l) [5, 0, 3] = cellHash (fun l => l) [0, 5, 3, 0, 0]
    ∧ cellHash (fun l => l) [0, 0, 0] = [0, 0]
    ∧ rowIndices [5, 0, 3] ≠ rowIndices [0, 5, 3, 0, 0] :=
  ⟨(C2_hash_ignores_gene_indices (fun l => l)).1 [5, 0, 3] [0, 5, 3, 0, 0]
      (by decide),
   (C2_hash_ignores_gene_indices (fun l => l)).2 [0, 0, 0] (by decide),
   by decide⟩

/-- C9: all iteration in the hashing cell is sequential consumption of
the externally-provided chunks: the rows are visited exactly in arrival
order of the chunks and index order within each chunk, so the visit trace
is the obs axis in order, and the recorded assignments carry the same
order. -/
theorem C9_sequential_iteration (obsIds : List Nat) (s : Nat) (hs : 0 < s) :
    hashLoopOrder obsIds s = obsIds
    ∧ ∀ (β : Type) (H : List Nat → β) (X : Nat → List Nat),
        (hashLoop H X obsIds s).map Prod.fst = obsIds := by
  constructor
  · unfold hashLoopOrder
    exact chunksOf_flatten s hs obsIds
  · intro β H X
    rw [hashLoop_eq_map H X obsIds s hs, List.map_map]
    simp [Function.comp_def]

/-- Witness for C9: three obs rows, stride 2. -/
theorem C9_sequential_iteration_witness :
    hashLoopOrder [3, 1, 2] 2 = [3, 1, 2] :=
  (C9_sequential_iteration [3, 1, 2] 2 (by decide)).1

end CellDup

namespace CellDup

/-- C3: `obs_duplicate_primary` contains exactly the obs rows marked
`is_primary_data == True` whose hash has pivot count at `(hash, True)`
strictly above 1; non-primary rows are excluded even when their hash is
duplicated.  The hypothesis records that the pivot's `True` column exists
(some row is primary) — with no primary row anywhere the notebook's
`hash_primary_pivot.loc[:, True]` raises a KeyError instead of producing
a report. -/
theorem C3_duplicate_primary_membership (obs : List ObsRow)
    (_hcol : ∃ r ∈ obs, r.is_primary_data = true) :
    (∀ r : ObsRow, r ∈ obsDuplicatePrimary obs ↔
      (r ∈ obs ∧ r.is_primary_data = true ∧ 1 < pivotCount obs r.hash true))
    ∧ (∀ r ∈ obs, r.is_primary_data = false →
        r ∉ obsDuplicatePrimary obs) := by
  have hmem : ∀ r : ObsRow, r ∈ obsDuplicatePrimary obs ↔
      (r ∈ obs ∧ r.is_primary_data = true ∧
        1 < pivotCount obs r.hash true) := by
    intro r
    unfold obsDuplicatePrimary locByHash dupPrimaryHashes pivotHashes
    simp only [List.mem_filter, List.mem_flatMap, List.mem_dedup,
      List.mem_map, decide_eq_true_eq]
    constructor
    · rintro ⟨⟨h, ⟨⟨a, ha, hah⟩, hcnt⟩, hro, hrh⟩, hp⟩
      subst hrh
      exact ⟨hro, hp, hcnt⟩
    · rintro ⟨hro, hp, hcnt⟩
      exact ⟨⟨r.hash, ⟨⟨r, hro, rfl⟩, hcnt⟩, hro, rfl⟩, hp⟩
  refine ⟨hmem, ?_⟩
  intro r _ hfalse hin
  have := ((hmem r).mp hin).2.1
  rw [hfalse] at this
  exact Bool.false_ne_true this

/-- Witness for C3 on `exampleObs`: the primary row with duplicated hash
`h1` is in the report, the non-primary row with the same hash is not. -/
theorem C3_duplicate_primary_membership_witness :
    (⟨0, "h1", "d1", true⟩ : ObsRow) ∈ obsDuplicatePrimary exampleObs
    ∧ (⟨2, "h1", "d3", false⟩ : ObsRow) ∉ obsDuplicatePrimary exampleObs := by
  have h := C3_duplicate_primary_membership exampleObs
    ⟨⟨0, "h1", "d1", true⟩, by decide, rfl⟩
  exact ⟨(h.1 _).mpr ⟨by decide, rfl, by decide⟩,
         h.2 ⟨2, "h1", "d3", false⟩ (by decide) rfl⟩

/-- C6: after the hashing phase `obs_df` has exactly the columns `hash`,
`dataset_id`, `is_primary_data` with `hash` inserted at position 0 and
`soma_joinid` as the index, and the report phase reads `obs_df` without
ever modifying it (no column is ever added). -/
theorem C6_obs_df_columns :
    obsColumnsFinal = ["hash", "dataset_id", "is_primary_data"]
    ∧ obsColumnsFinal[0]? = some "hash"
    ∧ (∀ obs ds, (runReports obs ds).obsAfter = obs) := by
  exact ⟨by decide, by decide, fun obs ds => rfl⟩

/-- C8: the notebook persists no state: the world (store and file
system) after the full run is the world before it, and the artifacts are
a function of the opened store alone — in particular independent of the
file system. -/
theorem C8_no_persisted_state (H : List Nat → String) (s : Nat) (w : World) :
    (runFindDups H s w).1 = w
    ∧ (runFindDups H s w).1.files = w.files
    ∧ ∀ w' : World, w.census = w'.census →
        (runFindDups H s w).2 = (runFindDups H s w').2 := by
  refine ⟨rfl, rfl, ?_⟩
  intro w' hc
  simp only [runFindDups, readDatasets, readObs, readXChunks, hc]

/-- Witness for C8: the concrete example world, compared against the same
store under a different file system. -/
theorem C8_no_persisted_state_witness :
    (runFindDups (fun _ => "") 2 exampleWorld).1 = exampleWorld
    ∧ (runFindDups (fun _ => "") 2 exampleWorld).2
        = (runFindDups (fun _ => "") 2 exampleWorldB).2 := by
  have h := C8_no_persisted_state (fun _ => "") 2 exampleWorld
  exact ⟨h.1, h.2.2 exampleWorldB rfl⟩

end CellDup

namespace CellDup

/-- C7: the hashing cell defines no failure handling: an error of the
store iterator aborts the scan with that same error once the successful
prefix (of yields) has been consumed, an error of the hash library aborts
the chunk with that same error once the successful chunk elements have
been consumed, and with no failures the fallible loop computes exactly
what the pure loop computes — the loop never produces an error result of
its own. -/
theorem C7_exception_propagation {β : Type} (H : List Nat → Except String β)
    (X : Nat → List Nat) :
    (∀ (pre rest : List (Except String (List Nat))) (e : String)
        (v : List (Nat × β)), hashLoopE H pre X = .ok v →
        hashLoopE H (pre ++ .error e :: rest) X = .error e)
    ∧ (∀ (chunk : List Nat) (j : Nat) (rest : List Nat) (e : String)
        (w : List (Nat × β)), hashChunkE H chunk X = .ok w →
        H (hashedBytes (X j)) = .error e →
        hashChunkE H (chunk ++ j :: rest) X = .error e)
    ∧ (∀ (G : List Nat → β) (chunks : List (List Nat)),
        hashLoopE (fun bs => .ok (G bs)) (chunks.map Except.ok) X
          = .ok (chunks.flatMap (hashChunk G X))) := by
  refine ⟨?_, ?_, ?_⟩
  · intro pre
    induction pre with
    | nil =>
      intro rest e v _
      rfl
    | cons y pre ih =>
      intro rest e v hv
      cases y with
      | error f => simp [hashLoopE] at hv
      | ok chunk =>
        simp only [List.cons_append, hashLoopE] at hv ⊢
        cases hck : hashChunkE H chunk X with
        | error f => rw [hck] at hv; simp at hv
        | ok hs =>
          rw [hck] at hv
          dsimp only at hv ⊢
          cases hrec : hashLoopE H pre X with
          | error f => rw [hrec] at hv; simp at hv
          | ok tail =>
            have hrw := ih rest e tail hrec
            simp only [List.append_eq]
            rw [hrw]
  · intro chunk
    induction chunk with
    | nil =>
      intro j rest e w _ hj
      simp only [List.nil_append, hashChunkE, hj]
    | cons k chunk ih =>
      intro j rest e w hw hj
      simp only [List.cons_append, hashChunkE] at hw ⊢
      cases hk : H (hashedBytes (X k)) with
      | error f => rw [hk] at hw; simp at hw
      | ok hv =>
        rw [hk] at hw
        dsimp only at hw ⊢
        cases hrec : hashChunkE H chunk X with
        | error f => rw [hrec] at hw; simp at hw
        | ok tail =>
          have hrw := ih j rest e tail hrec hj
          simp only [List.append_eq]
          rw [hrw]
  · intro G chunks
    have hchunk : ∀ c : List Nat,
        hashChunkE (fun bs => (.ok (G bs) : Except String β)) c X
          = .ok (hashChunk G X c) := by
      intro c
      induction c with
      | nil => rfl
      | cons j t iht => simp [hashChunkE, hashChunk, cellHash, iht]
    induction chunks with
    | nil => rfl
    | cons c rest ih =>
      simp only [List.map_cons, hashLoopE, hchunk c, ih,
        List.flatMap_cons]

/-- Witness for C7: an iterator failure and a hash-library failure, each
propagated unchanged out of a scan with a successfully consumed empty
successful part. -/
theorem C7_exception_propagation_witness :
    hashLoopE (fun bs => (Except.ok bs : Except String (List Nat)))
      [Except.error "tiledb read failure"] (fun _ => [])
      = Except.error "tiledb read failure"
    ∧ hashChunkE (fun _ => (Except.error "xxhash failure" :
        Except String (List Nat))) [7] (fun _ => [])
      = Except.error "xxhash failure" := by
  have h1 := C7_exception_propagation
    (fun bs => (Except.ok bs : Except String (List Nat))) (fun _ => [])
  have h2 := C7_exception_propagation
    (fun _ => (Except.error "xxhash failure" : Except String (List Nat)))
    (fun _ => [])
  exact ⟨h1.1 [] [] "tiledb read failure" [] rfl,
         h2.2.1 [] 7 [] "xxhash failure" [] rfl rfl⟩

/-- C4 counterexample: the claim's "if and only if" fails on the
`unit_tests_python_api` job when the dependency-install step (index 2)
fails: no pytest invocation runs (so every pytest invocation among the
steps trivially succeeded), yet the job does not exit zero. -/
theorem C4_counterexample :
    jobSucceeds [true, true, false, true, true, true] = false
    ∧ pytestInvocationsOk apiJobSteps [true, true, false, true, true, true]
        = true
    ∧ ¬ (jobSucceeds [true, true, false, true, true, true] = true ↔
        pytestInvocationsOk apiJobSteps [true, true, false, true, true, true]
          = true) := by
  decide

theorem executedSteps_all_snd (steps : List Step) :
    ∀ o : List Bool, o.all (fun b => b) = true →
      (executedSteps steps o).all (fun p => p.2) = true := by
  induction steps with
  | nil => intro o _; cases o <;> rfl
  | cons st ss ih =>
    intro o h
    cases o with
    | nil => rfl
    | cons b bs =>
      simp only [List.all_cons, Bool.and_eq_true] at h
      cases b with
      | false => simp at h
      | true =>
        simp only [executedSteps, if_pos]
        simp only [List.all_cons, Bool.and_eq_true]
        exact ⟨trivial, ih bs h.2⟩

/-- C4 amended: a CI job exits zero exactly when every one of its steps
succeeds; in particular, whenever the `unit_tests_python_api` or
`unit_tests_builder` job succeeds, every pytest invocation among its
executed steps succeeded.  The converse of the claim fails (see the
counterexample): a non-pytest step such as dependency installation can
fail the job with no pytest invocation failing. -/
theorem C4_job_success_implies_pytest_ok (o1 o2 : List Bool)
    (h1 : jobSucceeds o1 = true) (h2 : jobSucceeds o2 = true) :
    pytestInvocationsOk apiJobSteps o1 = true
    ∧ pytestInvocationsOk builderJobSteps o2 = true := by
  have key : ∀ (steps : List Step) (o : List Bool),
      jobSucceeds o = true → pytestInvocationsOk steps o = true := by
    intro steps o h
    unfold pytestInvocationsOk
    have hall := executedSteps_all_snd steps o h
    rw [List.all_eq_true] at hall ⊢
    intro p hp
    simp [hall p hp]
  exact ⟨key apiJobSteps o1 h1, key builderJobSteps o2 h2⟩

/-- Witness for C4 (amended) at the all-success outcomes of both jobs. -/
theorem C4_job_success_implies_pytest_ok_witness :
    pytestInvocationsOk apiJobSteps [true, true, true, true, true, true]
      = true
    ∧ pytestInvocationsOk builderJobSteps [true, true, true, true, true]
      = true :=
  C4_job_success_implies_pytest_ok
    [true, true, true, true, true, true] [true, true, true, true, true]
    (by decide) (by decide)

/-- C5 counterexample: `finddups.ipynb` calls `X_sparse_iter` (imported
from `cellxgene_census.experimental.util`), a Census API entry point that
is not among the four the claim allows. -/
theorem C5_counterexample :
    "X_sparse_iter" ∈ finddupsEntryPoints
    ∧ "X_sparse_iter" ∉ specEntryPoints := by
  decide

/-- C5 amended: every Census/SOMA entry point invoked by the two
notebooks is one of the four named by the specification plus
`X_sparse_iter` (`cellxgene_census.experimental.util`) and `AxisQuery`
(`tiledbsoma`). -/
theorem C5_entry_points_amended :
    ∀ c ∈ finddupsEntryPoints ++ pytorchEntryPoints,
      c ∈ specEntryPoints ++ ["X_sparse_iter", "AxisQuery"] := by
  decide

/-- Witness for C5 (amended) at a concrete call name. -/
theorem C5_entry_points_amended_witness :
    "open_soma" ∈ specEntryPoints ++ ["X_sparse_iter", "AxisQuery"] :=
  C5_entry_points_amended "open_soma" (by decide)

end CellDup

namespace TrainNB

/-- C10 counterexample: a dataloader that yields one empty batch yields
batches, yet `train_epoch` still divides by a zero `train_total`; the
claim's "if and only if its train_dataloader yields no batches" is
therefore false at this input. -/
theorem C10_counterexample :
    trainEpoch (fun _ => 0) (fun _ _ => 0) [{ xs := [], ys := [] }]
      = Except.error "ZeroDivisionError"
    ∧ ([{ xs := [], ys := [] }] : List Batch) ≠ []
    ∧ ¬ ((trainEpoch (fun _ => 0) (fun _ _ => 0) [{ xs := [], ys := [] }]
          = Except.error "ZeroDivisionError") ↔
        ([{ xs := [], ys := [] }] : List Batch) = []) := by
  refine ⟨rfl, by simp, ?_⟩
  intro hiff
  exact absurd (hiff.mp rfl) (by simp)

/-- C10 amended: `train_epoch` raises `ZeroDivisionError` iff
`train_total` remains 0 at the final divisions, i.e. iff the batches
yielded by `train_dataloader` contain no rows in total (no batches, or
only empty ones); for every dataloader yielding at least one non-empty
batch it returns without error with `train_accuracy = train_correct /
train_total` in the closed interval [0, 1]. -/
theorem C10_train_epoch_division (predict : List ℚ → Nat)
    (lossFn : List (List ℚ) → List Nat → ℚ) (batches : List Batch) :
    (trainEpoch predict lossFn batches = Except.error "ZeroDivisionError" ↔
      (batches.map (fun b => b.xs.length)).sum = 0)
    ∧ ((∃ b ∈ batches, b.xs ≠ []) →
        ∃ l a : ℚ, trainEpoch predict lossFn batches = Except.ok (l, a)
          ∧ 0 ≤ a ∧ a ≤ 1) := by
  have htot := trainEpochAcc_total predict lossFn batches
  constructor
  · unfold trainEpoch
    rw [← htot]
    by_cases h : (trainEpochAcc predict lossFn batches).2.2 = 0
    · simp [h]
    · simp [h]
  · rintro ⟨b, hb, hxs⟩
    have hpos : 0 < (trainEpochAcc predict lossFn batches).2.2 := by
      rw [htot]
      have h1 : 0 < b.xs.length := List.length_pos.mpr hxs
      have hmem : b.xs.length ∈ batches.map (fun b => b.xs.length) :=
        List.mem_map.mpr ⟨b, hb, rfl⟩
      calc 0 < b.xs.length := h1
        _ ≤ (batches.map (fun b => b.xs.length)).sum :=
          List.single_le_sum (fun x _ => Nat.zero_le x) _ hmem
    have hne : (trainEpochAcc predict lossFn batches).2.2 ≠ 0 :=
      Nat.pos_iff_ne_zero.mp hpos
    refine ⟨_, _, by unfold trainEpoch; rw [if_neg hne], ?_, ?_⟩
    · positivity
    · have hle := trainEpochAcc_correct_le predict lossFn batches
      rw [div_le_one (by exact_mod_cast hpos)]
      exact_mod_cast hle

/-- Witness for C10 (amended): one batch with one row, predicted
correctly: no error, accuracy within [0, 1]. -/
theorem C10_train_epoch_division_witness :
    (trainEpoch (fun _ => 0) (fun _ _ => 0)
        [{ xs := [[1]], ys := [(4, 0)] }] = Except.error "ZeroDivisionError" ↔
      (([{ xs := [[1]], ys := [(4, 0)] }] : List Batch).map
        (fun b => b.xs.length)).sum = 0)
    ∧ ∃ l a : ℚ, trainEpoch (fun _ => 0) (fun _ _ => 0)
        [{ xs := [[1]], ys := [(4, 0)] }] = Except.ok (l, a)
        ∧ 0 ≤ a ∧ a ≤ 1 := by
  have h := C10_train_epoch_division (fun _ => 0) (fun _ _ => 0)
    [{ xs := [[1]], ys := [(4, 0)] }]
  exact ⟨h.1, h.2 ⟨{ xs := [[1]], ys := [(4, 0)] }, by simp, by simp⟩⟩

end TrainNB
